import Mathlib

/-!
Shallow embedding of the entity lifecycle and persistence engine of
`src/entity-registry.ts` (the ccbot repository).

The registry owns a live map of entities keyed by string id, constructs
entities through a factory table, kills them individually or in bulk,
debounces persistence through a pending-flush flag plus deferred callbacks,
and writes the serialized live set back to an external store.

Machine-level notes on the embedding:
- JS objects used as string-keyed maps become association lists
  `List (String × Entity)`; insertion appends, deletion filters.
- The asynchronous parts are made explicit: the `setImmediate` deferrals of
  `markPendingFlush` become a counter of scheduled flush callbacks
  (`deferredFlushes`) which a scheduling tick (`runTick`) drains, and the
  promise continuation of `newEntity` is split into a synchronous phase
  (`newEntitySync`) and a resolution phase (`newEntityCont`).
- Ghost observation fields (`graveyard`, `onKillCalls`, `resetCount`,
  `deferredFlushes`) record events the theorems talk about; no operation
  reads them to make a decision.
- Epoch-millisecond times are `Nat`.
-/

namespace CCBot

/-- A persisted entity record: the `EntityData` interface of the source
(`type`, optional `createTime`, optional `killTime`) together with the
optional explicit `id` that factory-built entities may carry. -/
structure EntityData where
  type : String
  id : Option String := none
  createTime : Option Nat := none
  killTime : Option Nat := none
deriving DecidableEq

/-- An entity value: the base `Entity` class fields. `id` is `none` while no
explicit id has been assigned (the source checks `id in newEnt`). -/
structure Entity where
  id : Option String
  etype : String
  createTime : Nat
  killTime : Nat
  killed : Bool
deriving DecidableEq

/-- The base `Entity` constructor: copies `type`, takes `createTime` from the
record when present and otherwise the current time, and takes `killTime` from
the record defaulting to 0 (`data.killTime || 0`). `killed` starts false. -/
def entityCtor (id : Option String) (data : EntityData) (now : Nat) : Entity :=
  { id := id
    etype := data.type
    createTime := data.createTime.getD now
    killTime := data.killTime.getD 0
    killed := false }

/-- The base `toSaveData()`: serializes exactly `type`, `createTime` and
`killTime`; the id is never written to the record. -/
def toSaveData (e : Entity) : EntityData :=
  { type := e.etype
    id := none
    createTime := some e.createTime
    killTime := some e.killTime }

/-- The outcome of one run of the self-expiry check: return without
rescheduling, invoke the bound kill and re-arm after a delay, or merely
reschedule after a delay (delays in milliseconds). -/
inductive CheckAction where
  | nothing
  | killAndRecheck (delayMs : Nat)
  | recheck (delayMs : Nat)
deriving DecidableEq

/-- One run of `entityCheckIfShouldKill` at the given current time: killed
entities short-circuit; a zero `killTime` short-circuits; a reached
`killTime` invokes kill and re-arms after 1000 ms; otherwise the next check
is scheduled after exactly the remaining interval. -/
def entityCheckIfShouldKill (e : Entity) (time : Nat) : CheckAction :=
  if e.killed then .nothing
  else if e.killTime = 0 then .nothing
  else if e.killTime ≤ time then .killAndRecheck 1000
  else .recheck (e.killTime - time)

/-- Modelled from the spec: the `DynamicData` store (file `dynamic-data.ts`
is not under `src/`). Per the external-interface contract it holds the
current ordered record snapshot (`data`) and an atomic mutation entry point
(`modify`) that applies a mutator and then triggers the `onModify`
callbacks. `modifyCount` counts the calls into `modify`. -/
structure Store where
  data : List EntityData
  modifyCount : Nat
deriving DecidableEq

/-- The full registry state: live map, reentrancy guard, pending-flush flag,
started flag and the store, plus ghost observation fields: the number of
scheduled (not yet run) flush callbacks, the killed entities in kill order,
the ids on which `onKill()` ran, and how many times `resetEntities`
performed its work. -/
structure RegState where
  entities : List (String × Entity)
  duringOurModification : Bool
  pendingEntityFlush : Bool
  started : Bool
  store : Store
  deferredFlushes : Nat
  graveyard : List Entity
  onKillCalls : List String
  resetCount : Nat
deriving DecidableEq

/-- The factory table `entityTypes`: maps a type discriminator to an
asynchronous constructor; `none` on the outside means no factory registered,
`none` on the inside means the factory rejected. -/
def FactoryTable : Type := String → Option (EntityData → Option Entity)

/-- `markPendingFlush()`: sets the dirty flag and schedules one deferred
flush callback (`setImmediate`). -/
def markPendingFlush (st : RegState) : RegState :=
  { st with pendingEntityFlush := true, deferredFlushes := st.deferredFlushes + 1 }

/-- The conditional body of `killEntity`: when `id` is live, set the entity
killed, remove it from the live map and invoke `onKill()`; otherwise do
nothing. -/
def killCore (id : String) (st : RegState) : RegState :=
  match st.entities.find? (fun p => p.1 == id) with
  | some p =>
    { st with
      entities := st.entities.filter (fun q => !(q.1 == id))
      graveyard := st.graveyard ++ [{ p.2 with killed := true }]
      onKillCalls := st.onKillCalls ++ [id] }
  | none => st

/-- `killEntity(id)`: the conditional kill body followed by an unconditional
`markPendingFlush()`. -/
def killEntity (id : String) (st : RegState) : RegState :=
  markPendingFlush (killCore id st)

/-- `killAllEntities()`: kills every live entity (killed flag, removal,
`onKill()`), then marks one pending flush. -/
def killAllEntities (st : RegState) : RegState :=
  markPendingFlush
    { st with
      entities := []
      graveyard := st.graveyard ++ st.entities.map (fun p => { p.2 with killed := true })
      onKillCalls := st.onKillCalls ++ st.entities.map Prod.fst }

/-- The id-generation loop of `newEntity`: starting from candidate `idn`,
return the first decimal string not among `keys`; `fuel` bounds the loop (the
source while-loop always terminates because the map is finite). -/
def freshIdAux (keys : List String) : Nat → Nat → String
  | 0, idn => Nat.repr idn
  | fuel+1, idn => if Nat.repr idn ∈ keys then freshIdAux keys fuel (idn+1) else Nat.repr idn

/-- The generated id for an entity without an explicit one: the lowest
decimal string ("0", "1", ...) not present among the live keys. -/
def freshId (keys : List String) : String :=
  freshIdAux keys (keys.length + 1) 0

/-- The synchronous phase of `newEntity(data)`: reject when not started;
reject (after logging) when no factory is registered for `data.type`;
otherwise the factory call is issued and its resolution is pending. The
registry state is not changed in this phase. -/
def newEntitySync (ft : FactoryTable) (d : EntityData) (st : RegState) :
    RegState × Option EntityData :=
  if !st.started then (st, none)
  else
    match ft d.type with
    | some _ => (st, some d)
    | none => (st, none)

/-- The id under which a resolved entity is inserted: its explicit id when
it has one, else the lowest free generated id over the current live keys. -/
def newIdOf (st : RegState) (e0 : Entity) : String :=
  match e0.id with
  | some i => i
  | none => freshId (st.entities.map Prod.fst)

/-- The resolution phase of `newEntity(data)`: when the factory rejects, log
and reject leaving the state unchanged; when it resolves, assign the lowest
free generated id if the entity has none, kill any predecessor under that
id, insert the entity into the live map and mark a pending flush. -/
def newEntityCont (ft : FactoryTable) (d : EntityData) (st : RegState) :
    RegState × Option Entity :=
  match ft d.type with
  | none => (st, none)
  | some f =>
    match f d with
    | none => (st, none)
    | some e0 =>
      let nid := newIdOf st e0
      let e1 := { e0 with id := some nid }
      let st1 := killEntity nid st
      let st2 := { st1 with entities := st1.entities ++ [(nid, e1)] }
      (markPendingFlush st2, some e1)

/-- Full `newEntity(data)`: the synchronous phase followed, when a factory
call was issued, by its resolution. -/
def newEntity (ft : FactoryTable) (d : EntityData) (st : RegState) :
    RegState × Option Entity :=
  match newEntitySync ft d st with
  | (st1, none) => (st1, none)
  | (st1, some d1) => newEntityCont ft d1 st1

/-- The issuing loop of `resetEntities`: one `newEntity` synchronous phase
per record of the snapshot, collecting the records whose factory resolution
is pending. -/
def issueAll (ft : FactoryTable) : List EntityData → RegState → RegState × List EntityData
  | [], st => (st, [])
  | d :: ds, st =>
    match newEntitySync ft d st with
    | (st1, p) =>
      let r := issueAll ft ds st1
      (r.1, p.toList ++ r.2)

/-- Runs the pending factory resolutions, in order. -/
def runConts (ft : FactoryTable) : List EntityData → RegState → RegState
  | [], st => st
  | d :: ds, st => runConts ft ds (newEntityCont ft d st).1

/-- `resetEntities()`: a no-op when not started; otherwise kill all live
entities, issue one `newEntity` per record of the current store snapshot,
clear the pending-flush flag, and then the pending factory resolutions run
(promise continuations run after the synchronous body). The ghost
`resetCount` counts the times the started branch executes. -/
def resetEntities (ft : FactoryTable) (st : RegState) : RegState :=
  if !st.started then st
  else
    let st1 := { st with resetCount := st.resetCount + 1 }
    let st2 := killAllEntities st1
    let r := issueAll ft st2.store.data st2
    let st3 := { r.1 with pendingEntityFlush := false }
    runConts ft r.2 st3

/-- `start()`: idempotent; transitions to started and performs one full
`resetEntities()`. -/
def start (ft : FactoryTable) (st : RegState) : RegState :=
  if st.started then st else resetEntities ft { st with started := true }

/-- The change-notification handler installed by the registry constructor:
on a store modification, run `resetEntities()` unless the registry is not
started or the notification is self-originated (`duringOurModification`). -/
def onModifyHandler (ft : FactoryTable) (st : RegState) : RegState :=
  if st.started && !st.duringOurModification then resetEntities ft st else st

/-- `saveToDynamicData()`: a no-op when not started; otherwise set the
reentrancy guard, call the store mutation entry point (replacing the
snapshot with the serialized live set, and triggering the change
notification as the store contract prescribes), clear the guard and clear
the pending-flush flag. -/
def saveToDynamicData (ft : FactoryTable) (st : RegState) : RegState :=
  if !st.started then st
  else
    let st1 := { st with duringOurModification := true }
    let st2 := { st1 with store :=
      { data := st1.entities.map (fun p => toSaveData p.2)
        modifyCount := st1.store.modifyCount + 1 } }
    let st3 := onModifyHandler ft st2
    let st4 := { st3 with duringOurModification := false }
    { st4 with pendingEntityFlush := false }

/-- One deferred flush callback scheduled by `markPendingFlush`: save when
the dirty flag is still set, otherwise do nothing. -/
def runFlushCallback (ft : FactoryTable) (st : RegState) : RegState :=
  if st.pendingEntityFlush then saveToDynamicData ft st else st

/-- Runs `n` deferred flush callbacks in order. -/
def runDeferred (ft : FactoryTable) : Nat → RegState → RegState
  | 0, st => st
  | n+1, st => runDeferred ft n (runFlushCallback ft st)

/-- One scheduling tick: drain every currently scheduled deferred flush
callback. -/
def runTick (ft : FactoryTable) (st : RegState) : RegState :=
  runDeferred ft st.deferredFlushes { st with deferredFlushes := 0 }

/-- A mutating call of the coalescing contract: an individual kill or a
create. -/
inductive MutOp where
  | kill (id : String)
  | create (d : EntityData)
deriving DecidableEq

/-- Applies one mutating call. -/
def applyMutOp (ft : FactoryTable) : MutOp → RegState → RegState
  | .kill id, st => killEntity id st
  | .create d, st => (newEntity ft d st).1

/-- Applies a sequence of mutating calls, in order. -/
def applyMutOps (ft : FactoryTable) : List MutOp → RegState → RegState
  | [], st => st
  | op :: ops, st => applyMutOps ft ops (applyMutOp ft op st)

/-- Whether a mutating call marks a pending flush on a started registry: a
kill always does; a create does exactly when its factory is registered and
resolves. -/
def opMarks (ft : FactoryTable) : MutOp → Bool
  | .kill _ => true
  | .create d =>
    match ft d.type with
    | some f => (f d).isSome
    | none => false

/-- A registry operation of the kill-monotonicity claim. -/
inductive RegOp where
  | killOne (id : String)
  | create (d : EntityData)
  | killAll
  | reset
  | save
deriving DecidableEq

/-- Applies one registry operation. -/
def applyRegOp (ft : FactoryTable) : RegOp → RegState → RegState
  | .killOne id, st => killEntity id st
  | .create d, st => (newEntity ft d st).1
  | .killAll, st => killAllEntities st
  | .reset, st => resetEntities ft st
  | .save, st => saveToDynamicData ft st

/-- Applies a sequence of registry operations, in order. -/
def applyRegOps (ft : FactoryTable) : List RegOp → RegState → RegState
  | [], st => st
  | op :: ops, st => applyRegOps ft ops (applyRegOp ft op st)

/-- A well-formed factory table: every entity a factory resolves with is
freshly constructed, hence not yet killed (the base constructor initializes
`killed` to false). -/
def FTOk (ft : FactoryTable) : Prop :=
  ∀ ty f, ft ty = some f → ∀ d e, f d = some e → e.killed = false

/-- The live/dead invariant: live entities are unkilled; graveyard entries
are killed. -/
def EntInv (st : RegState) : Prop :=
  (∀ p ∈ st.entities, p.2.killed = false) ∧ (∀ e ∈ st.graveyard, e.killed = true)

/-- A record fails construction: either no factory is registered for its
type, or the factory rejects it. -/
def recFails (ft : FactoryTable) (d : EntityData) : Prop :=
  ∀ f, ft d.type = some f → f d = none

/-- A concrete factory table: exactly one registered type, `"x"`, whose
factory resolves with a base entity (no explicit id) built at time 500. -/
def ftA : FactoryTable := fun ty =>
  if ty = "x" then some (fun d => some (entityCtor none d 500)) else none

/-- A concrete not-yet-started registry whose store snapshot holds one
record of type `"x"` with `createTime` 100. -/
def stA : RegState :=
  { entities := []
    duringOurModification := false
    pendingEntityFlush := false
    started := false
    store := { data := [{ type := "x", createTime := some 100 }], modifyCount := 0 }
    deferredFlushes := 0
    graveyard := []
    onKillCalls := []
    resetCount := 0 }

/-- A concrete started, idle registry with an empty live map and an empty
store snapshot. -/
def stB : RegState :=
  { stA with started := true, store := { data := [], modifyCount := 0 } }

/-- The started registry `stB` with the reentrancy guard set, as seen by the
change-notification handler during a self-originated write. -/
def stG : RegState :=
  { stB with duringOurModification := true }

/-- The entity Scenario A ends with: generated id "0", type `"x"`, the
loaded creation time 100, no expiry. -/
def eA : Entity :=
  { id := some "0", etype := "x", createTime := 100, killTime := 0, killed := false }

/-- A concrete started registry holding the single live entity `eA`. -/
def stC : RegState :=
  { stB with entities := [("0", eA)] }

/-- The numeric value of a decimal digit character. -/
def digitVal (c : Char) : Nat := c.toNat - 48

/-- Reads a most-significant-first decimal digit string back as a number. -/
def evalDigits (l : List Char) : Nat :=
  l.foldl (fun a c => a * 10 + digitVal c) 0

/-- Appends the decimal digits of `n` to an accumulated value `v`. -/
def pushNat (v n : Nat) : Nat :=
  if n < 10 then v * 10 + n
  else pushNat v (n / 10) * 10 + n % 10
termination_by n
decreasing_by exact Nat.div_lt_self (by omega) (by omega)

theorem digitVal_digitChar : ∀ k : Nat, k < 10 → digitVal (Nat.digitChar k) = k := by decide

theorem pushNat_lt (v n : Nat) (h : n < 10) : pushNat v n = v * 10 + n := by
  rw [pushNat, if_pos h]

theorem pushNat_ge (v n : Nat) (h : ¬ n < 10) :
    pushNat v n = pushNat v (n / 10) * 10 + n % 10 := by
  rw [pushNat, if_neg h]

theorem pushNat_zero (n : Nat) : pushNat 0 n = n := by
  induction n using Nat.strong_induction_on with
  | _ n ih =>
    by_cases h : n < 10
    · rw [pushNat_lt _ _ h]; omega
    · rw [pushNat_ge _ _ h, ih (n / 10) (Nat.div_lt_self (by omega) (by omega))]
      omega

theorem foldl_toDigitsCore :
    ∀ fuel n ds v, n < fuel →
      List.foldl (fun a c => a * 10 + digitVal c) v (Nat.toDigitsCore 10 fuel n ds) =
      List.foldl (fun a c => a * 10 + digitVal c) (pushNat v n) ds := by
  intro fuel
  induction fuel with
  | zero => intro n ds v h; omega
  | succ fuel ih =>
    intro n ds v h
    by_cases hd : n / 10 = 0
    · have hn : n < 10 := by omega
      simp only [Nat.toDigitsCore, hd, if_pos, List.foldl_cons]
      rw [digitVal_digitChar (n % 10) (Nat.mod_lt _ (by omega)),
        Nat.mod_eq_of_lt hn, pushNat_lt _ _ hn]
    · have hge : ¬ n < 10 := by omega
      have hdn : n / 10 < n := Nat.div_lt_self (by omega) (by omega)
      have hlt : n / 10 < fuel := by omega
      simp only [Nat.toDigitsCore, hd, if_false]
      rw [ih (n / 10) _ v hlt]
      simp only [List.foldl_cons]
      rw [digitVal_digitChar (n % 10) (Nat.mod_lt _ (by omega)), pushNat_ge _ _ hge]

theorem evalDigits_toDigits (n : Nat) : evalDigits (Nat.toDigits 10 n) = n := by
  unfold evalDigits Nat.toDigits
  rw [foldl_toDigitsCore (n + 1) n [] 0 (Nat.lt_succ_self n)]
  simp [pushNat_zero]

theorem repr_injective : Function.Injective Nat.repr := by
  intro a b h
  unfold Nat.repr at h
  rw [List.asString_inj] at h
  have h2 := congrArg evalDigits h
  rwa [evalDigits_toDigits, evalDigits_toDigits] at h2

theorem freshIdAux_spec (keys : List String) :
    ∀ fuel idn n, idn ≤ n → n - idn ≤ fuel → Nat.repr n ∉ keys →
      (∀ m, idn ≤ m → m < n → Nat.repr m ∈ keys) →
      freshIdAux keys fuel idn = Nat.repr n := by
  intro fuel
  induction fuel with
  | zero =>
    intro idn n h1 h2 _ _
    have he : idn = n := by omega
    simp [freshIdAux, he]
  | succ fuel ih =>
    intro idn n h1 h2 hn hall
    by_cases hm : Nat.repr idn ∈ keys
    · have hne : idn ≠ n := fun he => hn (he ▸ hm)
      simp only [freshIdAux]
      rw [if_pos hm]
      exact ih (idn + 1) n (by omega) (by omega) hn (fun m hm1 hm2 => hall m (by omega) hm2)
    · have he : idn = n := by
        by_contra hne
        exact hm (hall idn le_rfl (by omega))
      subst he
      simp only [freshIdAux]
      rw [if_neg hm]

theorem freshId_spec (keys : List String) (n : Nat)
    (hn : Nat.repr n ∉ keys) (hall : ∀ m, m < n → Nat.repr m ∈ keys) :
    freshId keys = Nat.repr n := by
  have hlen : n ≤ keys.length := by
    have hnodup : ((List.range n).map Nat.repr).Nodup :=
      (List.nodup_range n).map repr_injective
    have hsub : (List.range n).map Nat.repr ⊆ keys := by
      intro x hx
      rcases List.mem_map.mp hx with ⟨m, hm, rfl⟩
      exact hall m (List.mem_range.mp hm)
    have hle := (List.subperm_of_subset hnodup hsub).length_le
    simpa using hle
  exact freshIdAux_spec keys (keys.length + 1) 0 n (Nat.zero_le n) (by omega) hn
    (fun m _ hm => hall m hm)

theorem markPendingFlush_started (st : RegState) : (markPendingFlush st).started = st.started := rfl

theorem markPendingFlush_store (st : RegState) : (markPendingFlush st).store = st.store := rfl

theorem markPendingFlush_entities (st : RegState) :
    (markPendingFlush st).entities = st.entities := rfl

theorem markPendingFlush_graveyard (st : RegState) :
    (markPendingFlush st).graveyard = st.graveyard := rfl

theorem markPendingFlush_flag (st : RegState) : (markPendingFlush st).pendingEntityFlush = true := rfl

theorem markPendingFlush_deferred (st : RegState) :
    (markPendingFlush st).deferredFlushes = st.deferredFlushes + 1 := rfl

theorem killCore_started (id : String) (st : RegState) : (killCore id st).started = st.started := by
  unfold killCore; split <;> rfl

theorem killCore_store (id : String) (st : RegState) : (killCore id st).store = st.store := by
  unfold killCore; split <;> rfl

theorem killCore_flag (id : String) (st : RegState) :
    (killCore id st).pendingEntityFlush = st.pendingEntityFlush := by
  unfold killCore; split <;> rfl

theorem killCore_deferred (id : String) (st : RegState) :
    (killCore id st).deferredFlushes = st.deferredFlushes := by
  unfold killCore; split <;> rfl

theorem killCore_prefix (id : String) (st : RegState) :
    st.graveyard <+: (killCore id st).graveyard := by
  unfold killCore
  split
  · exact List.prefix_append _ _
  · exact List.prefix_rfl

theorem killEntity_started (id : String) (st : RegState) :
    (killEntity id st).started = st.started := killCore_started id st

theorem killEntity_store (id : String) (st : RegState) :
    (killEntity id st).store = st.store := killCore_store id st

theorem killEntity_flag (id : String) (st : RegState) :
    (killEntity id st).pendingEntityFlush = true := rfl

theorem killEntity_deferred (id : String) (st : RegState) :
    (killEntity id st).deferredFlushes = st.deferredFlushes + 1 := by
  show (killCore id st).deferredFlushes + 1 = st.deferredFlushes + 1
  rw [killCore_deferred]

theorem killAllEntities_started (st : RegState) : (killAllEntities st).started = st.started := rfl

theorem killAllEntities_store (st : RegState) : (killAllEntities st).store = st.store := rfl

theorem newEntitySync_fst (ft : FactoryTable) (d : EntityData) (st : RegState) :
    (newEntitySync ft d st).1 = st := by
  unfold newEntitySync
  split
  · rfl
  · split <;> rfl

theorem newEntityCont_unknown {ft : FactoryTable} {d : EntityData} (st : RegState)
    (hft : ft d.type = none) : newEntityCont ft d st = (st, none) := by
  unfold newEntityCont
  rw [hft]

theorem newEntityCont_reject {ft : FactoryTable} {d : EntityData} {f : EntityData → Option Entity}
    (st : RegState) (hft : ft d.type = some f) (hf : f d = none) :
    newEntityCont ft d st = (st, none) := by
  simp only [newEntityCont, hft, hf]

theorem newEntityCont_success {ft : FactoryTable} {d : EntityData}
    {f : EntityData → Option Entity} {e0 : Entity} (st : RegState)
    (hft : ft d.type = some f) (hf : f d = some e0) :
    newEntityCont ft d st =
      (markPendingFlush
        { killEntity (newIdOf st e0) st with
          entities := (killEntity (newIdOf st e0) st).entities ++
            [(newIdOf st e0, { e0 with id := some (newIdOf st e0) })] },
       some { e0 with id := some (newIdOf st e0) }) := by
  simp only [newEntityCont, hft, hf]

theorem newEntityCont_started (ft : FactoryTable) (d : EntityData) (st : RegState) :
    (newEntityCont ft d st).1.started = st.started := by
  rcases hft : ft d.type with _ | f
  · rw [newEntityCont_unknown st hft]
  · rcases hf : f d with _ | e0
    · rw [newEntityCont_reject st hft hf]
    · rw [newEntityCont_success st hft hf]
      show (killEntity (newIdOf st e0) st).started = st.started
      exact killEntity_started _ _

theorem newEntityCont_store (ft : FactoryTable) (d : EntityData) (st : RegState) :
    (newEntityCont ft d st).1.store = st.store := by
  rcases hft : ft d.type with _ | f
  · rw [newEntityCont_unknown st hft]
  · rcases hf : f d with _ | e0
    · rw [newEntityCont_reject st hft hf]
    · rw [newEntityCont_success st hft hf]
      show (killEntity (newIdOf st e0) st).store = st.store
      exact killEntity_store _ _

theorem runConts_started (ft : FactoryTable) :
    ∀ (ds : List EntityData) (st : RegState), (runConts ft ds st).started = st.started := by
  intro ds
  induction ds with
  | nil => intro st; rfl
  | cons d ds ih =>
    intro st
    rw [runConts, ih, newEntityCont_started]

theorem runConts_store (ft : FactoryTable) :
    ∀ (ds : List EntityData) (st : RegState), (runConts ft ds st).store = st.store := by
  intro ds
  induction ds with
  | nil => intro st; rfl
  | cons d ds ih =>
    intro st
    rw [runConts, ih, newEntityCont_store]

theorem issueAll_fst (ft : FactoryTable) :
    ∀ (ds : List EntityData) (st : RegState), (issueAll ft ds st).1 = st := by
  intro ds
  induction ds with
  | nil => intro st; rfl
  | cons d ds ih =>
    intro st
    show (issueAll ft ds (newEntitySync ft d st).1).1 = st
    rw [newEntitySync_fst, ih]

theorem issueAll_snd (ft : FactoryTable) :
    ∀ (ds : List EntityData) (st : RegState), st.started = true →
      (issueAll ft ds st).2 = ds.filter (fun d => (ft d.type).isSome) := by
  intro ds
  induction ds with
  | nil => intro st _; rfl
  | cons d ds ih =>
    intro st hs
    show ((newEntitySync ft d st).2).toList ++ (issueAll ft ds (newEntitySync ft d st).1).2 =
      List.filter _ (d :: ds)
    rw [newEntitySync_fst, ih st hs, List.filter_cons]
    unfold newEntitySync
    rcases hft : ft d.type with _ | f <;> simp [hs, hft]

theorem resetEntities_store (ft : FactoryTable) (st : RegState) :
    (resetEntities ft st).store = st.store := by
  unfold resetEntities
  split
  · rfl
  · rw [runConts_store, issueAll_fst]
    rfl

theorem resetEntities_started (ft : FactoryTable) (st : RegState) :
    (resetEntities ft st).started = st.started := by
  unfold resetEntities
  split
  · rfl
  · rw [runConts_started, issueAll_fst]
    rfl

theorem save_not_started {ft : FactoryTable} {st : RegState} (hs : st.started = false) :
    saveToDynamicData ft st = st := by
  unfold saveToDynamicData
  rw [if_pos (by simp [hs])]

theorem save_eq {st : RegState} (ft : FactoryTable) (hs : st.started = true) :
    saveToDynamicData ft st =
      { st with
        store := { data := st.entities.map (fun p => toSaveData p.2)
                   modifyCount := st.store.modifyCount + 1 }
        duringOurModification := false
        pendingEntityFlush := false } := by
  unfold saveToDynamicData onModifyHandler
  simp [hs]

theorem newEntity_not_started {ft : FactoryTable} {d : EntityData} {st : RegState}
    (hs : st.started = false) : newEntity ft d st = (st, none) := by
  unfold newEntity newEntitySync
  simp [hs]

theorem newEntity_unknown {ft : FactoryTable} {d : EntityData} {st : RegState}
    (hs : st.started = true) (hft : ft d.type = none) : newEntity ft d st = (st, none) := by
  unfold newEntity newEntitySync
  simp [hs, hft]

theorem newEntity_known {ft : FactoryTable} {d : EntityData} {st : RegState}
    {f : EntityData → Option Entity} (hs : st.started = true) (hft : ft d.type = some f) :
    newEntity ft d st = newEntityCont ft d st := by
  unfold newEntity newEntitySync
  simp [hs, hft]

theorem newEntityCont_deferred_success {ft : FactoryTable} {d : EntityData}
    {f : EntityData → Option Entity} {e0 : Entity} (st : RegState)
    (hft : ft d.type = some f) (hf : f d = some e0) :
    (newEntityCont ft d st).1.deferredFlushes = st.deferredFlushes + 2 := by
  rw [newEntityCont_success st hft hf]
  show (killCore (newIdOf st e0) st).deferredFlushes + 1 + 1 = st.deferredFlushes + 2
  rw [killCore_deferred]

theorem newEntityCont_flag_success {ft : FactoryTable} {d : EntityData}
    {f : EntityData → Option Entity} {e0 : Entity} (st : RegState)
    (hft : ft d.type = some f) (hf : f d = some e0) :
    (newEntityCont ft d st).1.pendingEntityFlush = true := by
  rw [newEntityCont_success st hft hf]
  rfl

/-- Field facts about one mutating call on a started registry: it stays
started, never touches the store, never unschedules a deferred flush, and
when it marks a flush it both raises the dirty flag and schedules at least
one more deferred callback; a raised flag stays raised. -/
theorem applyMutOp_facts (ft : FactoryTable) (op : MutOp) (st : RegState)
    (hs : st.started = true) :
    (applyMutOp ft op st).started = true ∧
    (applyMutOp ft op st).store = st.store ∧
    st.deferredFlushes ≤ (applyMutOp ft op st).deferredFlushes ∧
    (opMarks ft op = true → (applyMutOp ft op st).pendingEntityFlush = true ∧
      st.deferredFlushes + 1 ≤ (applyMutOp ft op st).deferredFlushes) ∧
    (st.pendingEntityFlush = true → (applyMutOp ft op st).pendingEntityFlush = true) := by
  cases op with
  | kill id =>
    have hd := killEntity_deferred id st
    refine ⟨by rw [applyMutOp, killEntity_started, hs],
      by rw [applyMutOp, killEntity_store], ?_, ?_, ?_⟩
    · show st.deferredFlushes ≤ (killEntity id st).deferredFlushes
      omega
    · intro _
      exact ⟨killEntity_flag id st, by show _ ≤ (killEntity id st).deferredFlushes; omega⟩
    · intro _
      exact killEntity_flag id st
  | create d =>
    simp only [applyMutOp]
    rcases hft : ft d.type with _ | f
    · rw [newEntity_unknown hs hft]
      exact ⟨hs, rfl, le_rfl, by simp [opMarks, hft], fun h => h⟩
    · rw [newEntity_known hs hft]
      rcases hf : f d with _ | e0
      · rw [newEntityCont_reject st hft hf]
        exact ⟨hs, rfl, le_rfl, by simp [opMarks, hft, hf], fun h => h⟩
      · have hd := newEntityCont_deferred_success st hft hf
        have hfl := newEntityCont_flag_success st hft hf
        refine ⟨?_, ?_, by omega, fun _ => ⟨hfl, by omega⟩, fun _ => hfl⟩
        · rw [newEntityCont_started, hs]
        · rw [newEntityCont_store]

/-- Field facts accumulated over a sequence of mutating calls that all mark
a pending flush: the registry stays started, the store is untouched, and a
nonempty sequence leaves the dirty flag raised with at least one scheduled
deferred flush callback. -/
theorem applyMutOps_facts (ft : FactoryTable) :
    ∀ (ops : List MutOp) (st : RegState), st.started = true →
      (∀ op ∈ ops, opMarks ft op = true) →
      (applyMutOps ft ops st).started = true ∧
      (applyMutOps ft ops st).store = st.store ∧
      (ops ≠ [] → (applyMutOps ft ops st).pendingEntityFlush = true ∧
        1 ≤ (applyMutOps ft ops st).deferredFlushes) := by
  intro ops
  induction ops with
  | nil =>
    intro st hs _
    exact ⟨hs, rfl, fun h => absurd rfl h⟩
  | cons op ops ih =>
    intro st hs hmk
    have hop := applyMutOp_facts ft op st hs
    have hmkop : opMarks ft op = true := hmk op (List.mem_cons_self op ops)
    obtain ⟨h1, h2, h3, h4, h5⟩ := hop
    obtain ⟨hflag, hd1⟩ := h4 hmkop
    have ihh := ih (applyMutOp ft op st) h1 (fun o ho => hmk o (List.mem_cons_of_mem op ho))
    obtain ⟨i1, i2, _⟩ := ihh
    refine ⟨i1, by rw [applyMutOps, i2, h2], fun _ => ?_⟩
    constructor
    · -- the flag, once raised, survives the remaining marking calls
      have : ∀ (os : List MutOp) (s : RegState), s.started = true →
          s.pendingEntityFlush = true → (applyMutOps ft os s).pendingEntityFlush = true := by
        intro os
        induction os with
        | nil => intro s _ hf; exact hf
        | cons o os ih2 =>
          intro s hss hf
          obtain ⟨j1, _, _, _, j5⟩ := applyMutOp_facts ft o s hss
          exact ih2 (applyMutOp ft o s) j1 (j5 hf)
      exact this ops (applyMutOp ft op st) h1 hflag
    · -- at least one deferred callback stays scheduled
      have : ∀ (os : List MutOp) (s : RegState), s.started = true →
          (applyMutOps ft os s).deferredFlushes ≥ s.deferredFlushes := by
        intro os
        induction os with
        | nil => intro s _; exact le_rfl
        | cons o os ih2 =>
          intro s hss
          obtain ⟨j1, _, j3, _, _⟩ := applyMutOp_facts ft o s hss
          exact le_trans j3 (ih2 (applyMutOp ft o s) j1)
      have hmono := this ops (applyMutOp ft op st) h1
      show 1 ≤ (applyMutOps ft ops (applyMutOp ft op st)).deferredFlushes
      omega

theorem runFlushCallback_noflag {ft : FactoryTable} {st : RegState}
    (h : st.pendingEntityFlush = false) : runFlushCallback ft st = st := by
  unfold runFlushCallback
  simp [h]

theorem runDeferred_noflag (ft : FactoryTable) :
    ∀ (n : Nat) (st : RegState), st.pendingEntityFlush = false → runDeferred ft n st = st := by
  intro n
  induction n with
  | zero => intro st _; rfl
  | succ n ih =>
    intro st h
    rw [runDeferred, runFlushCallback_noflag h]
    exact ih st h

theorem markPendingFlush_frame (st : RegState) (s : Store) :
    markPendingFlush { st with store := s } = { markPendingFlush st with store := s } := rfl

theorem killCore_frame (id : String) (st : RegState) (s : Store) :
    killCore id { st with store := s } = { killCore id st with store := s } := by
  obtain ⟨ents, dur, pend, strt, sto, defe, grav, okc, rc⟩ := st
  unfold killCore
  rcases h : ents.find? (fun p => p.1 == id) with _ | p <;> rw [h]

theorem killEntity_frame (id : String) (st : RegState) (s : Store) :
    killEntity id { st with store := s } = { killEntity id st with store := s } := by
  unfold killEntity
  rw [killCore_frame, markPendingFlush_frame]

theorem killAllEntities_frame (st : RegState) (s : Store) :
    killAllEntities { st with store := s } = { killAllEntities st with store := s } := rfl

theorem newIdOf_frame (st : RegState) (s : Store) (e0 : Entity) :
    newIdOf { st with store := s } e0 = newIdOf st e0 := rfl

theorem newEntityCont_frame (ft : FactoryTable) (d : EntityData) (st : RegState) (s : Store) :
    newEntityCont ft d { st with store := s } =
      ({ (newEntityCont ft d st).1 with store := s }, (newEntityCont ft d st).2) := by
  rcases hft : ft d.type with _ | f
  · rw [newEntityCont_unknown _ hft, newEntityCont_unknown st hft]
  · rcases hf : f d with _ | e0
    · rw [newEntityCont_reject _ hft hf, newEntityCont_reject st hft hf]
    · rw [newEntityCont_success _ hft hf, newEntityCont_success st hft hf]
      rw [newIdOf_frame, killEntity_frame]
      rfl

theorem runConts_frame (ft : FactoryTable) :
    ∀ (ds : List EntityData) (st : RegState) (s : Store),
      runConts ft ds { st with store := s } = { runConts ft ds st with store := s } := by
  intro ds
  induction ds with
  | nil => intro st s; rfl
  | cons d ds ih =>
    intro st s
    show runConts ft ds (newEntityCont ft d { st with store := s }).1 = _
    rw [newEntityCont_frame, ih]
    rfl

theorem runConts_append (ft : FactoryTable) :
    ∀ (xs ys : List EntityData) (st : RegState),
      runConts ft (xs ++ ys) st = runConts ft ys (runConts ft xs st) := by
  intro xs
  induction xs with
  | nil => intro ys st; rfl
  | cons x xs ih =>
    intro ys st
    show runConts ft (xs ++ ys) (newEntityCont ft x st).1 = _
    rw [ih]
    rfl

/-- The started branch of `resetEntities`, with the issuing loop evaluated:
kill all entities, collect the records with a registered factory, clear the
dirty flag, run the factory resolutions. -/
theorem resetEntities_eq {st : RegState} (ft : FactoryTable) (hs : st.started = true) :
    resetEntities ft st =
      runConts ft (st.store.data.filter (fun d => (ft d.type).isSome))
        { killAllEntities { st with resetCount := st.resetCount + 1 }
          with pendingEntityFlush := false } := by
  unfold resetEntities
  rw [if_neg (by simp [hs])]
  dsimp only
  rw [issueAll_snd ft _ _ (by rw [killAllEntities_started]; exact hs), issueAll_fst]
  rfl

/-- `resetEntities` over an explicitly given snapshot: the whole run only
reads the snapshot, so it factors through the store field. -/
theorem resetEntities_frame_data (ft : FactoryTable) (st : RegState) (hs : st.started = true)
    (dl : List EntityData) (mc : Nat) :
    resetEntities ft { st with store := { data := dl, modifyCount := mc } } =
      { runConts ft (dl.filter (fun d => (ft d.type).isSome))
          { killAllEntities { st with resetCount := st.resetCount + 1 }
            with pendingEntityFlush := false }
        with store := { data := dl, modifyCount := mc } } := by
  rw [resetEntities_eq ft (show ({ st with store := { data := dl, modifyCount := mc } } :
    RegState).started = true from hs)]
  show runConts ft (dl.filter (fun d => (ft d.type).isSome))
      { { killAllEntities { st with resetCount := st.resetCount + 1 }
          with pendingEntityFlush := false }
        with store := { data := dl, modifyCount := mc } } = _
  rw [runConts_frame]

theorem entInv_killCore (id : String) {st : RegState} (h : EntInv st) :
    EntInv (killCore id st) := by
  unfold EntInv at h ⊢
  unfold killCore
  rcases hf : st.entities.find? (fun p => p.1 == id) with _ | p
  · rw [hf]
    exact h
  · rw [hf]
    constructor
    · intro q hq
      exact h.1 q (List.mem_of_mem_filter hq)
    · intro e he
      rcases List.mem_append.mp he with h1 | h2
      · exact h.2 e h1
      · rw [List.mem_singleton.mp h2]

theorem entInv_killAll {st : RegState} (h : EntInv st) : EntInv (killAllEntities st) := by
  unfold EntInv at h ⊢
  constructor
  · intro p hp
    exact absurd hp (List.not_mem_nil p)
  · intro e he
    rcases List.mem_append.mp he with h1 | h2
    · exact h.2 e h1
    · rcases List.mem_map.mp h2 with ⟨q, hq, rfl⟩
      rfl

theorem entInv_newEntityCont {ft : FactoryTable} (hFT : FTOk ft) (d : EntityData)
    {st : RegState} (h : EntInv st) :
    EntInv (newEntityCont ft d st).1 ∧ st.graveyard <+: (newEntityCont ft d st).1.graveyard := by
  rcases hft : ft d.type with _ | f
  · rw [newEntityCont_unknown st hft]
    exact ⟨h, List.prefix_rfl⟩
  · rcases hf : f d with _ | e0
    · rw [newEntityCont_reject st hft hf]
      exact ⟨h, List.prefix_rfl⟩
    · rw [newEntityCont_success st hft hf]
      have he0 : e0.killed = false := hFT d.type f hft d e0 hf
      have hK : EntInv (killCore (newIdOf st e0) st) := entInv_killCore _ h
      refine ⟨⟨?_, hK.2⟩, killCore_prefix (newIdOf st e0) st⟩
      intro q hq
      rcases List.mem_append.mp hq with h1 | h2
      · exact hK.1 q h1
      · rw [List.mem_singleton.mp h2]
        exact he0

theorem entInv_runConts {ft : FactoryTable} (hFT : FTOk ft) :
    ∀ (ds : List EntityData) (st : RegState), EntInv st →
      EntInv (runConts ft ds st) ∧ st.graveyard <+: (runConts ft ds st).graveyard := by
  intro ds
  induction ds with
  | nil => intro st h; exact ⟨h, List.prefix_rfl⟩
  | cons d ds ih =>
    intro st h
    obtain ⟨h1, h2⟩ := entInv_newEntityCont hFT d h
    obtain ⟨h3, h4⟩ := ih (newEntityCont ft d st).1 h1
    exact ⟨h3, h2.trans h4⟩

theorem entInv_resetEntities {ft : FactoryTable} (hFT : FTOk ft) (st : RegState)
    (h : EntInv st) :
    EntInv (resetEntities ft st) ∧ st.graveyard <+: (resetEntities ft st).graveyard := by
  unfold resetEntities
  split
  · exact ⟨h, List.prefix_rfl⟩
  · dsimp only
    rw [issueAll_fst]
    have hb : EntInv ({ killAllEntities { st with resetCount := st.resetCount + 1 }
        with pendingEntityFlush := false }) := entInv_killAll h
    obtain ⟨p1, p2⟩ := entInv_runConts hFT _ _ hb
    exact ⟨p1, (List.prefix_append _ _).trans p2⟩

theorem entInv_save (ft : FactoryTable) (st : RegState) (h : EntInv st) :
    EntInv (saveToDynamicData ft st) ∧ st.graveyard <+: (saveToDynamicData ft st).graveyard := by
  cases hs : st.started with
  | false =>
    rw [save_not_started hs]
    exact ⟨h, List.prefix_rfl⟩
  | true =>
    rw [save_eq ft hs]
    exact ⟨h, List.prefix_rfl⟩

/-- C7: Round trip — rebuilding an entity through the base constructor from
its own `toSaveData()` record yields an entity whose `toSaveData()` output
is field-wise equal; in particular `type`, `createTime` and `killTime` are
preserved across the cycle (the record never carries an id, so a freshly
generated id on either side is ignored by construction). -/
theorem claim7_round_trip :
    ∀ (e : Entity) (id2 : Option String) (now2 : Nat),
      toSaveData (entityCtor id2 (toSaveData e) now2) = toSaveData e ∧
      (entityCtor id2 (toSaveData e) now2).etype = e.etype ∧
      (entityCtor id2 (toSaveData e) now2).createTime = e.createTime ∧
      (entityCtor id2 (toSaveData e) now2).killTime = e.killTime := by
  intro e id2 now2
  exact ⟨rfl, rfl, rfl, rfl⟩

/-- C8: Self-expiry check step — for an entity with non-zero `killTime`, a
run of the check at the current time returns without rescheduling when the
entity is already killed, invokes the bound kill and re-arms after a fixed
1000 ms when the current time has reached `killTime`, and otherwise
schedules the next check after exactly `killTime` minus the current time. -/
theorem claim8_expiry_check (e : Entity) (time : Nat) (hkt : e.killTime ≠ 0) :
    (e.killed = true → entityCheckIfShouldKill e time = CheckAction.nothing) ∧
    (e.killed = false → e.killTime ≤ time →
      entityCheckIfShouldKill e time = CheckAction.killAndRecheck 1000) ∧
    (e.killed = false → time < e.killTime →
      entityCheckIfShouldKill e time = CheckAction.recheck (e.killTime - time)) := by
  unfold entityCheckIfShouldKill
  refine ⟨fun hk => by simp [hk], fun hk hle => by simp [hk, hkt, hle], fun hk hlt => ?_⟩
  rw [if_neg (by simp [hk]), if_neg hkt, if_neg (by omega)]

/-- Witness for C8 at concrete entities: a killed entity, an entity whose
`killTime` 50 has passed at time 60, and one checked early at time 30. -/
theorem claim8_expiry_check_witness :
    entityCheckIfShouldKill ⟨some "a", "x", 100, 50, true⟩ 60 = CheckAction.nothing ∧
    entityCheckIfShouldKill ⟨some "a", "x", 100, 50, false⟩ 60 = CheckAction.killAndRecheck 1000 ∧
    entityCheckIfShouldKill ⟨some "a", "x", 100, 50, false⟩ 30 = CheckAction.recheck 20 :=
  ⟨(claim8_expiry_check ⟨some "a", "x", 100, 50, true⟩ 60 (by decide)).1 rfl,
   (claim8_expiry_check ⟨some "a", "x", 100, 50, false⟩ 60 (by decide)).2.1 rfl (by decide),
   (claim8_expiry_check ⟨some "a", "x", 100, 50, false⟩ 30 (by decide)).2.2 rfl (by decide)⟩

/-- C1: Self-origin suppression — while the reentrancy guard is set the
change-notification handler skips `resetEntities()`, and consequently a
`saveToDynamicData()` call never runs `resetEntities()` (its ghost run
counter is unchanged), for every registry and factory table. -/
theorem claim1_self_origin_suppression (ft : FactoryTable) (st : RegState) :
    (st.duringOurModification = true → onModifyHandler ft st = st) ∧
    (saveToDynamicData ft st).resetCount = st.resetCount := by
  constructor
  · intro h
    unfold onModifyHandler
    simp [h]
  · unfold saveToDynamicData onModifyHandler
    by_cases hs : st.started = true <;> simp [hs]

/-- Witness for C1: at the concrete guarded registry `stG`, the handler is
the identity and a save leaves the reset counter unchanged. -/
theorem claim1_self_origin_suppression_witness :
    onModifyHandler ftA stG = stG ∧
    (saveToDynamicData ftA stG).resetCount = stG.resetCount :=
  ⟨(claim1_self_origin_suppression ftA stG).1 rfl,
   (claim1_self_origin_suppression ftA stG).2⟩

/-- C6: Not-started invariant — before `start()`, `newEntity` rejects with
the state untouched, `resetEntities()` and `saveToDynamicData()` return the
state unchanged, and draining any number of deferred flush callbacks changes
nothing, so no call into the store mutation entry point occurs. -/
theorem claim6_not_started (ft : FactoryTable) (d : EntityData) (st : RegState) (n : Nat)
    (h : st.started = false) :
    newEntity ft d st = (st, none) ∧
    resetEntities ft st = st ∧
    saveToDynamicData ft st = st ∧
    runDeferred ft n st = st := by
  have hrc : runFlushCallback ft st = st := by
    unfold runFlushCallback saveToDynamicData
    split <;> simp [h]
  refine ⟨by simp [newEntity, newEntitySync, h], by simp [resetEntities, h],
    by simp [saveToDynamicData, h], ?_⟩
  induction n with
  | zero => rfl
  | succ n ih => rw [runDeferred, hrc]; exact ih

/-- Witness for C6 at the concrete not-started registry `stA`. -/
theorem claim6_not_started_witness :
    newEntity ftA { type := "x" } stA = (stA, none) ∧
    resetEntities ftA stA = stA ∧
    saveToDynamicData ftA stA = stA ∧
    runDeferred ftA 2 stA = stA :=
  claim6_not_started ftA { type := "x" } stA 2 rfl

/-- C10: Implicit persistence projection — the base serialization emits
exactly `type`, `createTime` and `killTime` and never the id, and after a
save on a started registry every record in the store snapshot carries no id,
so on reload every record re-enters `newEntity` without a stored id. -/
theorem claim10_no_id_persisted :
    (∀ e : Entity, toSaveData e =
      { type := e.etype, id := none, createTime := some e.createTime,
        killTime := some e.killTime }) ∧
    (∀ (ft : FactoryTable) (st : RegState), st.started = true →
      ∀ r ∈ (saveToDynamicData ft st).store.data, r.id = none) := by
  constructor
  · intro e; rfl
  · intro ft st hs r hr
    unfold saveToDynamicData onModifyHandler at hr
    simp [hs] at hr
    rcases hr with ⟨p, e, ⟨_, rfl⟩⟩
    rfl

/-- Witness for C10 at the concrete one-entity registry `stC`. -/
theorem claim10_no_id_persisted_witness :
    toSaveData eA = { type := "x", id := none, createTime := some 100, killTime := some 0 } ∧
    (toSaveData eA).id = none :=
  ⟨claim10_no_id_persisted.1 eA,
   claim10_no_id_persisted.2 ftA stC rfl (toSaveData eA) (by decide)⟩

/-- Counterexample to C3 as stated: `killEntity` on an id absent from the
live map is not a no-op — on the started idle registry `stB` (no entity
`"a"` live, dirty flag clear) it still sets the pending-flush flag and
schedules a deferred flush, because `markPendingFlush()` sits outside the
conditional. -/
theorem claim3_kill_entity_counterexample :
    killEntity "a" stB ≠ stB ∧ (killEntity "a" stB).pendingEntityFlush = true ∧
      stB.pendingEntityFlush = false := by
  refine ⟨?_, rfl, rfl⟩
  decide

/-- C3 (amended): `killEntity(id)` is the conditional kill body followed by
an unconditional `markPendingFlush()`; when `id` is not live the kill body
changes nothing (but the flush is still marked); when `id` is live the kill
body sets the killed flag, removes the entry from the live map and invokes
`onKill()`; and the kill body is idempotent — a second call with the same id
changes nothing beyond marking another pending flush. -/
theorem claim3_kill_entity_amended (id : String) (st : RegState) :
    killEntity id st = markPendingFlush (killCore id st) ∧
    (st.entities.find? (fun p => p.1 == id) = none → killCore id st = st) ∧
    (∀ p, st.entities.find? (fun q => q.1 == id) = some p →
      killCore id st =
        { st with
          entities := st.entities.filter (fun q => !(q.1 == id))
          graveyard := st.graveyard ++ [{ p.2 with killed := true }]
          onKillCalls := st.onKillCalls ++ [id] }) ∧
    killCore id (killCore id st) = killCore id st := by
  refine ⟨rfl, ?_, ?_, ?_⟩
  · intro h
    unfold killCore
    rw [h]
  · intro p h
    unfold killCore
    rw [h]
  · have hnone : ∀ s : RegState, s.entities.find? (fun p => p.1 == id) = none →
        killCore id s = s := by
      intro s hs; unfold killCore; rw [hs]
    rcases h : st.entities.find? (fun p => p.1 == id) with _ | p
    · have h1 : killCore id st = st := hnone st h
      rw [h1, h1]
    · have h1 : killCore id st =
          { st with
            entities := st.entities.filter (fun q => !(q.1 == id))
            graveyard := st.graveyard ++ [{ p.2 with killed := true }]
            onKillCalls := st.onKillCalls ++ [id] } := by
        unfold killCore; rw [h]
      have h2 : (killCore id st).entities.find? (fun p => p.1 == id) = none := by
        rw [h1]
        show (st.entities.filter (fun q => !(q.1 == id))).find? (fun p => p.1 == id) = none
        rw [List.find?_eq_none]
        intro x hx
        have hm := List.of_mem_filter hx
        simp only [Bool.not_eq_true'] at hm
        simp [hm]
      exact hnone _ h2

/-- Witness for C3 (amended): the not-live branch at id `"a"` and the live
branch at id `"0"` of the concrete registry `stC`. -/
theorem claim3_kill_entity_amended_witness :
    (killEntity "a" stC = markPendingFlush (killCore "a" stC) ∧
      killCore "a" stC = stC ∧
      killCore "a" (killCore "a" stC) = killCore "a" stC) ∧
    killCore "0" stC =
      { stC with
        entities := stC.entities.filter (fun q => !(q.1 == "0"))
        graveyard := stC.graveyard ++ [{ eA with killed := true }]
        onKillCalls := stC.onKillCalls ++ ["0"] } :=
  ⟨⟨(claim3_kill_entity_amended "a" stC).1,
    (claim3_kill_entity_amended "a" stC).2.1 (by decide),
    (claim3_kill_entity_amended "a" stC).2.2.2⟩,
   (claim3_kill_entity_amended "0" stC).2.2.1 ("0", eA) (by decide)⟩

/-- C4: Generated-id assignment — an entity resolved without an explicit id
is inserted under the lowest decimal-string id not present among the current
live keys (`freshId`, the loop of `newEntity`), and Scenario A holds: a
registry started with snapshot `[(type x, createTime 100)]` and a factory
for `"x"` resolving with no explicit id ends with exactly one live entry,
under key `"0"`. -/
theorem claim4_generated_id :
    (∀ (keys : List String) (n : Nat), Nat.repr n ∉ keys →
      (∀ m, m < n → Nat.repr m ∈ keys) → freshId keys = Nat.repr n) ∧
    (∀ (st : RegState) (e0 : Entity), e0.id = none →
      newIdOf st e0 = freshId (st.entities.map Prod.fst)) ∧
    (start ftA stA).entities = [("0", eA)] := by
  refine ⟨freshId_spec, ?_, by decide⟩
  intro st e0 h
  unfold newIdOf
  rw [h]

/-- C2: Coalescing — on a started registry, any nonempty sequence of
killEntity/newEntity calls that all mark a pending flush leads, when the
deferred callbacks of the tick run, to exactly one call into the store
mutation entry point: the first callback that finds the dirty flag set
saves and clears it, every later callback is a no-op, and no deferred
callback stays scheduled. -/
theorem claim2_coalescing (ft : FactoryTable) (ops : List MutOp) (st : RegState)
    (hs : st.started = true) (hne : ops ≠ [])
    (hmk : ∀ op ∈ ops, opMarks ft op = true) :
    (runTick ft (applyMutOps ft ops st)).store.modifyCount = st.store.modifyCount + 1 ∧
    (runTick ft (applyMutOps ft ops st)).pendingEntityFlush = false ∧
    (runTick ft (applyMutOps ft ops st)).deferredFlushes = 0 := by
  obtain ⟨hst, hstore, hfd⟩ := applyMutOps_facts ft ops st hs hmk
  obtain ⟨hflagA, hnA⟩ := hfd hne
  obtain ⟨m, hm⟩ : ∃ m, (applyMutOps ft ops st).deferredFlushes = m + 1 :=
    ⟨(applyMutOps ft ops st).deferredFlushes - 1, by omega⟩
  unfold runTick
  rw [hm, runDeferred]
  have hrf : runFlushCallback ft { applyMutOps ft ops st with deferredFlushes := 0 } =
      saveToDynamicData ft { applyMutOps ft ops st with deferredFlushes := 0 } := by
    unfold runFlushCallback
    rw [if_pos]
    show (applyMutOps ft ops st).pendingEntityFlush = true
    exact hflagA
  rw [hrf, save_eq ft (by show (applyMutOps ft ops st).started = true; exact hst),
    runDeferred_noflag ft m _ rfl]
  refine ⟨?_, rfl, rfl⟩
  show (applyMutOps ft ops st).store.modifyCount + 1 = st.store.modifyCount + 1
  rw [hstore]

/-- Witness for C2: three mutating calls (two kills and one successful
create) on the started registry `stC` coalesce into a single store write. -/
theorem claim2_coalescing_witness :
    (runTick ftA (applyMutOps ftA
        [MutOp.kill "a", MutOp.kill "0", MutOp.create { type := "x", createTime := some 100 }]
        stC)).store.modifyCount = stC.store.modifyCount + 1 ∧
    (runTick ftA (applyMutOps ftA
        [MutOp.kill "a", MutOp.kill "0", MutOp.create { type := "x", createTime := some 100 }]
        stC)).pendingEntityFlush = false ∧
    (runTick ftA (applyMutOps ftA
        [MutOp.kill "a", MutOp.kill "0", MutOp.create { type := "x", createTime := some 100 }]
        stC)).deferredFlushes = 0 :=
  claim2_coalescing ftA
    [MutOp.kill "a", MutOp.kill "0", MutOp.create { type := "x", createTime := some 100 }]
    stC rfl (by decide) (by decide)

/-- C5: Failure semantics of construction — on a started registry, a
`newEntity` call whose record has no registered factory or whose factory
rejects returns a rejection with the state exactly unchanged (live map
untouched, no pending flush marked, no store write), and dropping such a
record from the snapshot does not change what `resetEntities` does to the
registry (every other record is attempted independently; only the stored
snapshot itself differs). -/
theorem claim5_failure_semantics (ft : FactoryTable) (d : EntityData) (st : RegState)
    (hs : st.started = true) (hfail : recFails ft d) :
    newEntity ft d st = (st, none) ∧
    (∀ (rs1 rs2 : List EntityData) (mc : Nat),
      resetEntities ft { st with store := { data := rs1 ++ d :: rs2, modifyCount := mc } } =
      { resetEntities ft { st with store := { data := rs1 ++ rs2, modifyCount := mc } }
        with store := { data := rs1 ++ d :: rs2, modifyCount := mc } }) := by
  constructor
  · rcases hft : ft d.type with _ | f
    · exact newEntity_unknown hs hft
    · rw [newEntity_known hs hft]
      exact newEntityCont_reject st hft (hfail f hft)
  · intro rs1 rs2 mc
    rw [resetEntities_frame_data ft st hs _ mc, resetEntities_frame_data ft st hs _ mc]
    have hrc : runConts ft ((rs1 ++ d :: rs2).filter (fun d => (ft d.type).isSome))
        { killAllEntities { st with resetCount := st.resetCount + 1 }
          with pendingEntityFlush := false } =
        runConts ft ((rs1 ++ rs2).filter (fun d => (ft d.type).isSome))
        { killAllEntities { st with resetCount := st.resetCount + 1 }
          with pendingEntityFlush := false } := by
      rcases hft : ft d.type with _ | f
      · have hp : ((fun d => (ft d.type).isSome) d) = false := by
          show (ft d.type).isSome = false
          rw [hft]
          rfl
        rw [List.filter_append, List.filter_append, List.filter_cons]
        simp only [hp]
        rw [if_neg (by simp)]
      · have hp : ((fun d => (ft d.type).isSome) d) = true := by
          show (ft d.type).isSome = true
          rw [hft]
          rfl
        rw [List.filter_append, List.filter_append, List.filter_cons]
        simp only [hp, if_pos]
        rw [runConts_append, runConts_append, runConts]
        rw [newEntityCont_reject _ hft (hfail f hft)]
    rw [hrc]

/-- Witness for C5: the record of unregistered type `"bad"` rejects on the
started registry `stC` without any state change, and dropping it from a
snapshot does not change the effect of a reset. -/
theorem claim5_failure_semantics_witness :
    newEntity ftA { type := "bad" } stC = (stC, none) ∧
    resetEntities ftA { stC with store :=
        { data := [{ type := "x", createTime := some 100 }, { type := "bad" }],
          modifyCount := 7 } } =
      { resetEntities ftA { stC with store :=
          { data := [{ type := "x", createTime := some 100 }], modifyCount := 7 } }
        with store :=
          { data := [{ type := "x", createTime := some 100 }, { type := "bad" }],
            modifyCount := 7 } } :=
  have hfail : recFails ftA { type := "bad" } := by
    intro f hf
    simp [ftA] at hf
  ⟨(claim5_failure_semantics ftA { type := "bad" } stC rfl hfail).1,
   (claim5_failure_semantics ftA { type := "bad" } stC rfl hfail).2
     [{ type := "x", createTime := some 100 }] [] 7⟩

/-- C9: Kill monotonicity — across every sequence of registry operations
(newEntity, killEntity, killAllEntities, resetEntities, saveToDynamicData)
over a well-formed factory table, the live/dead invariant is preserved
(every live entity has `killed = false`, every killed entity has
`killed = true`) and the ghost graveyard only grows: a killed entity stays
in the graveyard with its flag set forever and never reappears as a live
entry. -/
theorem claim9_kill_monotonic (ft : FactoryTable) (hFT : FTOk ft) :
    ∀ (ops : List RegOp) (st : RegState), EntInv st →
      EntInv (applyRegOps ft ops st) ∧
      st.graveyard <+: (applyRegOps ft ops st).graveyard := by
  intro ops
  induction ops with
  | nil => intro st h; exact ⟨h, List.prefix_rfl⟩
  | cons op ops ih =>
    intro st h
    have hop : EntInv (applyRegOp ft op st) ∧
        st.graveyard <+: (applyRegOp ft op st).graveyard := by
      cases op with
      | killOne id => exact ⟨entInv_killCore id h, killCore_prefix id st⟩
      | create d =>
        show EntInv (newEntity ft d st).1 ∧ st.graveyard <+: (newEntity ft d st).1.graveyard
        cases hs : st.started with
        | false =>
          rw [newEntity_not_started hs]
          exact ⟨h, List.prefix_rfl⟩
        | true =>
          rcases hft : ft d.type with _ | f
          · rw [newEntity_unknown hs hft]
            exact ⟨h, List.prefix_rfl⟩
          · rw [newEntity_known hs hft]
            exact entInv_newEntityCont hFT d h
      | killAll => exact ⟨entInv_killAll h, List.prefix_append _ _⟩
      | reset => exact entInv_resetEntities hFT st h
      | save => exact entInv_save ft st h
    obtain ⟨h1, h2⟩ := hop
    obtain ⟨h3, h4⟩ := ih (applyRegOp ft op st) h1
    exact ⟨h3, h2.trans h4⟩

/-- The concrete factory table `ftA` is well formed: its only factory
resolves with a freshly constructed entity. -/
theorem ftA_ok : FTOk ftA := by
  intro ty f hf d e he
  unfold ftA at hf
  by_cases h : ty = "x"
  · rw [if_pos h] at hf
    cases hf
    cases he
    rfl
  · rw [if_neg h] at hf
    cases hf

/-- Witness for C9: a concrete mixed operation sequence on the one-entity
registry `stC` preserves the live/dead invariant and only grows the
graveyard. -/
theorem claim9_kill_monotonic_witness :
    EntInv (applyRegOps ftA
      [RegOp.killOne "0", RegOp.create { type := "x", createTime := some 100 },
       RegOp.save, RegOp.reset, RegOp.killAll] stC) ∧
    stC.graveyard <+: (applyRegOps ftA
      [RegOp.killOne "0", RegOp.create { type := "x", createTime := some 100 },
       RegOp.save, RegOp.reset, RegOp.killAll] stC).graveyard :=
  claim9_kill_monotonic ftA ftA_ok
    [RegOp.killOne "0", RegOp.create { type := "x", createTime := some 100 },
     RegOp.save, RegOp.reset, RegOp.killAll] stC
    ⟨by decide, by decide⟩

/-- Witness for C4: the lowest free id over live keys `["0", "1"]` is `"2"`,
and Scenario A concretely. -/
theorem claim4_generated_id_witness :
    freshId ["0", "1"] = Nat.repr 2 ∧
    newIdOf stB ⟨none, "x", 100, 0, false⟩ = freshId (stB.entities.map Prod.fst) ∧
    (start ftA stA).entities = [("0", eA)] :=
  ⟨claim4_generated_id.1 ["0", "1"] 2 (by decide) (by decide),
   claim4_generated_id.2.1 stB ⟨none, "x", 100, 0, false⟩ rfl,
   claim4_generated_id.2.2⟩

end CCBot
